import Mathlib

/-!
Verification development for the SP3172 plant-competition simulator.

Shallow embedding of the Python sources in src/simulation_utils/
(species.py, plants.py, board.py, simulator.py).  Machine floats are
modelled by rationals, the uniform random draws, random indices and
dispersal offsets consumed by the code are passed in explicitly as
oracle arguments, and Python exceptions are modelled by an Except
monad over the error type Err.
-/

namespace SP3172

/-- Decidable equality on Except results, used to evaluate the
translated operations on concrete inputs. -/
instance exceptDecEq {ε α : Type} [DecidableEq ε] [DecidableEq α] :
    DecidableEq (Except ε α)
  | .ok x, .ok y =>
      match decEq x y with
      | isTrue h => isTrue (congrArg Except.ok h)
      | isFalse h => isFalse fun hh => h (Except.ok.inj hh)
  | .error x, .error y =>
      match decEq x y with
      | isTrue h => isTrue (congrArg Except.error h)
      | isFalse h => isFalse fun hh => h (Except.error.inj hh)
  | .ok _, .error _ => isFalse fun hh => Except.noConfusion hh
  | .error _, .ok _ => isFalse fun hh => Except.noConfusion hh

/-- Err models the Python exceptions the translated code can raise:
KeyError on a missing dictionary key, ValueError from random.randint on
an empty range, AttributeError on a missing attribute, IndexError on a
missing list index, ZeroDivisionError, and the math-domain ValueError
raised by math.log on a nonpositive argument. -/
inductive Err
  | keyError (k : ℤ)
  | valueError
  | attributeError
  | indexError
  | zeroDivision
  | logDomain
deriving DecidableEq

/-- Species models the runtime attribute record stored by
Species.__init__ (species.py lines 42 to 53).  The stored float
attributes seedPerTick and adultPerTick are modelled as rational
parameters; their defining arithmetic is treated separately by
speciesInit and SpeciesData.seedPerTickR below. -/
structure Species where
  speciesID : ℤ
  parentID : ℤ
  t1 : ℤ
  p1 : ℚ
  seedPerTick : ℚ
  t2 : ℤ
  p2 : ℚ
  adultPerTick : ℚ
  ns : ℕ
  conNDD : ℚ
  hetNDD : ℚ
deriving DecidableEq

/-- SpeciesData records the constructor arguments that Species.__init__
(species.py lines 20 to 53) stores on success, before the derived
per-tick survival rates are read. -/
structure SpeciesData where
  speciesID : ℤ
  parentID : ℤ
  t1 : ℤ
  p1 : ℚ
  t2 : ℤ
  p2 : ℚ
  ns : ℕ
  conNDD : ℚ
  hetNDD : ℚ
deriving DecidableEq

/-- speciesInit models the control flow of Species.__init__
(species.py lines 20 to 53).  The body performs no range validation:
it evaluates math.log(p1) / t1 (raising the math-domain ValueError when
p1 is nonpositive, then ZeroDivisionError when t1 is zero) and then
math.log(p2) / t2, in that order, and otherwise stores its arguments. -/
def speciesInit (nextID parentID : ℤ) (p1 p2 : ℚ) (t1 t2 : ℤ)
    (ns : ℕ) (conNDD hetNDD : ℚ) : Except Err SpeciesData :=
  if p1 ≤ 0 then .error .logDomain
  else if t1 = 0 then .error .zeroDivision
  else if p2 ≤ 0 then .error .logDomain
  else if t2 = 0 then .error .zeroDivision
  else .ok ⟨nextID, parentID, t1, p1, t2, p2, ns, conNDD, hetNDD⟩

/-- SpeciesData.seedPerTickR is the real value math.e ** (math.log(p1) / t1)
computed at species.py line 46. -/
noncomputable def SpeciesData.seedPerTickR (s : SpeciesData) : ℝ :=
  Real.exp (Real.log (s.p1 : ℝ) / (s.t1 : ℝ))

/-- SpeciesData.adultPerTickR is the real value math.e ** (math.log(p2) / t2)
computed at species.py line 49. -/
noncomputable def SpeciesData.adultPerTickR (s : SpeciesData) : ℝ :=
  Real.exp (Real.log (s.p2 : ℝ) / (s.t2 : ℝ))

/-- Plant models the Plant class hierarchy of plants.py: a Juvenile,
Adult or DeadPlant instance carrying its Species reference and age. -/
inductive Plant
  | juvenile (species : Species) (age : ℤ)
  | adult (species : Species) (age : ℤ)
  | dead (species : Species) (age : ℤ)
deriving DecidableEq

namespace Plant

/-- Plant.species reads the species attribute shared by every stage. -/
def species : Plant → Species
  | .juvenile s _ => s
  | .adult s _ => s
  | .dead s _ => s

/-- Plant.isAdult models isinstance(plant, Adult). -/
def isAdult : Plant → Bool
  | .adult _ _ => true
  | _ => false

/-- Plant.isJuvenile models isinstance(plant, Juvenile). -/
def isJuvenile : Plant → Bool
  | .juvenile _ _ => true
  | _ => false

/-- Plant.isDead models isinstance(plant, DeadPlant). -/
def isDead : Plant → Bool
  | .dead _ _ => true
  | _ => false

/-- juvenileNDD is Juvenile.calculateNDD (plants.py line 88). -/
def juvenileNDD (s : Species) (cNeighbors hNeighbors : ℤ) : ℚ :=
  2 * cNeighbors * s.conNDD + 2 * hNeighbors * s.hetNDD

/-- adultNDD is Adult.calculateNDD (plants.py line 119). -/
def adultNDD (s : Species) (cNeighbors hNeighbors : ℤ) : ℚ :=
  1 * cNeighbors * s.conNDD + 1 * hNeighbors * s.hetNDD

/-- Plant.update models the per-tick transition of one individual with
the uniform draw u passed explicitly: Juvenile.update (plants.py lines
94 to 100), Adult.update (lines 125 to 129).  A DeadPlant falls back to
the base Plant.update (lines 58 to 69) whose draw against 1 - 0 always
succeeds for a uniform sample in [0,1), so its age is incremented. -/
def update : Plant → ℤ → ℤ → ℚ → Plant
  | .juvenile s a, c, h, u =>
      if u ≤ s.seedPerTick - juvenileNDD s c h then
        if a + 1 ≥ s.t1 then .adult s (a + 1) else .juvenile s (a + 1)
      else .dead s a
  | .adult s a, c, h, u =>
      if u ≤ s.adultPerTick - adultNDD s c h then .adult s (a + 1)
      else .dead s a
  | .dead s a, _, _, _ => .dead s (a + 1)

end Plant

/-- NeighborDict models the Python dict mapping species id to a
neighbor count, as an insertion-ordered association list. -/
abbrev NeighborDict := List (ℤ × ℤ)

/-- ndLookup models a Python dict read d[k] returning none on a
missing key. -/
def ndLookup : NeighborDict → ℤ → Option ℤ
  | [], _ => none
  | (k0, v0) :: d, k => if k = k0 then some v0 else ndLookup d k

/-- ndSet models a Python dict write d[k] = v: an existing key keeps
its position, a new key is appended at the end. -/
def ndSet : NeighborDict → ℤ → ℤ → NeighborDict
  | [], k, v => [(k, v)]
  | (k0, v0) :: d, k, v =>
      if k = k0 then (k, v) :: d else (k0, v0) :: ndSet d k v

/-- ndSum models sum(d.values()). -/
def ndSum (d : NeighborDict) : ℤ :=
  (d.map Prod.snd).sum

/-- CountDict models the Python dict mapping a key to a two-element
count list [adultCount, juvenileCount], as an insertion-ordered
association list. -/
abbrev CountDict := List (ℤ × ℤ × ℤ)

/-- cdLookup models a Python dict read d[k] returning none on a
missing key. -/
def cdLookup : CountDict → ℤ → Option (ℤ × ℤ)
  | [], _ => none
  | (k0, v0) :: d, k => if k = k0 then some v0 else cdLookup d k

/-- cdSet models a Python dict write d[k] = v: an existing key keeps
its position, a new key is appended at the end. -/
def cdSet : CountDict → ℤ → ℤ × ℤ → CountDict
  | [], k, v => [(k, v)]
  | (k0, v0) :: d, k, v =>
      if k = k0 then (k, v) :: d else (k0, v0) :: cdSet d k v

/-- PlantArray models the PlantArray class state (plants.py lines 167
to 172). -/
structure PlantArray where
  hasAdult : Bool
  currentAdult : Option Plant
  storage : List Plant
  storageLimit : ℕ
  dictionaryFormat : CountDict
deriving DecidableEq

namespace PlantArray

/-- mk0 models the PlantArray constructor PlantArray(storageLimit)
(plants.py lines 167 to 172). -/
def mk0 (storageLimit : ℕ) : PlantArray :=
  ⟨false, none, [], storageLimit, []⟩

/-- addPlant models PlantArray.addPlant (plants.py lines 174 to 224).
The index drawn by random.randint(0, len(storage) - 1) in the
full-storage Adult branch is supplied through the oracle argument ridx
and reduced modulo the storage length; randint raises ValueError when
the storage is empty.  The line dictionaryFormat[replacedJuvenileIndex][1] -= 1
indexes the count dictionary by the drawn list index, raising KeyError
when that index is not a key of the dictionary. -/
def addPlant (arr : PlantArray) (plant : Plant) (ridx : ℕ) :
    Except Err PlantArray :=
  if (plant.isAdult = true ∧ arr.hasAdult = true) ∨
      (plant.isJuvenile = true ∧ arr.storageLimit ≤ arr.storage.length) then
    .ok arr
  else if plant.isAdult = true then
    if arr.storageLimit ≤ arr.storage.length then
      if arr.storage.length = 0 then .error .valueError
      else
        let i : ℕ := ridx % arr.storage.length
        match cdLookup arr.dictionaryFormat (i : ℤ) with
        | none => .error (.keyError (i : ℤ))
        | some v =>
            let d1 := cdSet arr.dictionaryFormat (i : ℤ) (v.1, v.2 - 1)
            let st := arr.storage.set i plant
            let sid := plant.species.speciesID
            let d2 :=
              match cdLookup d1 sid with
              | some w => cdSet d1 sid (1, w.2)
              | none => cdSet d1 sid (1, 0)
            .ok { arr with
                storage := st
                hasAdult := true
                currentAdult := some plant
                dictionaryFormat := d2 }
    else
      let st := arr.storage ++ [plant]
      let sid := plant.species.speciesID
      let d2 :=
        match cdLookup arr.dictionaryFormat sid with
        | some w => cdSet arr.dictionaryFormat sid (1, w.2)
        | none => cdSet arr.dictionaryFormat sid (1, 0)
      .ok { arr with
          storage := st
          hasAdult := true
          currentAdult := some plant
          dictionaryFormat := d2 }
  else if arr.storage.length < arr.storageLimit then
    let sid := plant.species.speciesID
    let d2 :=
      match cdLookup arr.dictionaryFormat sid with
      | some w => cdSet arr.dictionaryFormat sid (0, w.2 + 1)
      | none => cdSet arr.dictionaryFormat sid (0, 1)
    .ok { arr with storage := arr.storage ++ [plant], dictionaryFormat := d2 }
  else .ok arr

/-- addAdult models PlantArray.addAdult (plants.py lines 226 to 237):
an unchecked capacity-respecting append that never touches the adult
flag or the count dictionary. -/
def addAdult (arr : PlantArray) (plant : Plant) : PlantArray :=
  if arr.storage.length < arr.storageLimit then
    { arr with storage := arr.storage ++ [plant] }
  else arr

/-- addPlantFold offers a list of plants to a PlantArray through
addPlant one by one in order, threading the random-index oracle; this
is the loop of PlantArray.mergeArray (plants.py lines 254 to 255) and
the per-destination-cell view of the staging loop of Board.update
(board.py lines 256 to 264). -/
def addPlantFold : PlantArray → List Plant → (ℕ → ℕ) → Except Err PlantArray
  | arr, [], _ => .ok arr
  | arr, p :: ps, f =>
      match arr.addPlant p (f 0) with
      | .ok a => addPlantFold a ps (fun n => f (n + 1))
      | .error e => .error e

/-- mergeArray models PlantArray.mergeArray (plants.py lines 239 to
256). -/
def mergeArray (arr newArray : PlantArray) (f : ℕ → ℕ) :
    Except Err PlantArray :=
  if arr.hasAdult = true ∧ newArray.hasAdult = true then .ok arr
  else addPlantFold arr newArray.storage f

/-- addAdultTimes models the boomer loop of produceSeeds: n calls of
addAdult with a fresh Adult of the same species and age 0. -/
def addAdultTimes (arr : PlantArray) (p : Plant) : ℕ → PlantArray
  | 0 => arr
  | n + 1 => addAdultTimes (arr.addAdult p) p n

/-- produceSeeds models PlantArray.produceSeeds (plants.py lines 258 to
273).  Reading currentAdult.species with currentAdult set to None would
raise AttributeError. -/
def produceSeeds (arr : PlantArray) (boomerModel : Bool) :
    Except Err PlantArray :=
  let seedArray := mk0 arr.storageLimit
  if arr.hasAdult = true then
    match arr.currentAdult with
    | none => .error .attributeError
    | some ca =>
        if boomerModel then
          .ok (addAdultTimes seedArray (.adult ca.species 0) ca.species.ns)
        else
          addPlantFold seedArray
            (List.replicate ca.species.ns (.juvenile ca.species 0))
            (fun _ => 0)
  else .ok seedArray

/-- boomerMergeDict models PlantArray.boomerMergeDict (plants.py lines
293 to 311). -/
def boomerMergeDict (arr : PlantArray) (nd : NeighborDict) :
    Except Err NeighborDict :=
  if arr.hasAdult = true then
    match arr.currentAdult with
    | none => .error .attributeError
    | some p =>
        let sid := p.species.speciesID
        match ndLookup nd sid with
        | some c => .ok (ndSet nd sid (c + 1))
        | none => .ok (ndSet nd sid 1)
  else .ok nd

/-- zoomerGo is the loop of PlantArray.zoomerMergeDict over the items
of the count dictionary in stored order; v.1 + v.2 is the Python
count = sum(countLst). -/
def zoomerGo : CountDict → NeighborDict → NeighborDict
  | [], nd => nd
  | (k, v) :: rest, nd =>
      match ndLookup nd k with
      | some c => zoomerGo rest (ndSet nd k (c + (v.1 + v.2)))
      | none => zoomerGo rest (ndSet nd k (v.1 + v.2))

/-- zoomerMergeDict models PlantArray.zoomerMergeDict (plants.py lines
313 to 331). -/
def zoomerMergeDict (arr : PlantArray) (nd : NeighborDict) : NeighborDict :=
  zoomerGo arr.dictionaryFormat nd

/-- mergeDict models PlantArray.mergeDict (plants.py lines 275 to
291). -/
def mergeDict (arr : PlantArray) (nd : NeighborDict) (boomerModel : Bool) :
    Except Err NeighborDict :=
  if boomerModel then arr.boomerMergeDict nd else .ok (arr.zoomerMergeDict nd)

/-- toDictGo is the first loop of PlantArray.toDict, counting every
stored plant as a juvenile of its species. -/
def toDictGo : List Plant → CountDict → CountDict
  | [], d => d
  | p :: ps, d =>
      let sid := p.species.speciesID
      match cdLookup d sid with
      | some v => toDictGo ps (cdSet d sid (v.1, v.2 + 1))
      | none => toDictGo ps (cdSet d sid (0, 1))

/-- toDict models PlantArray.toDict (plants.py lines 333 to 360), the
mapping derived from the storage list plus the adult flag. -/
def toDict (arr : PlantArray) : Except Err CountDict :=
  let d := toDictGo arr.storage []
  if arr.hasAdult = true then
    match arr.currentAdult with
    | none => .error .attributeError
    | some ca =>
        let sid := ca.species.speciesID
        match cdLookup d sid with
        | some v => .ok (cdSet d sid (v.1 + 1, v.2 - 1))
        | none => .ok (cdSet d sid (1, 0))
  else .ok d

/-- UpdAcc carries the mutable state of the loop of PlantArray.update
(plants.py lines 399 to 422): the lists newStorage and adultStorage,
the dictionary newNeighborDict, and the hasAdult and currentAdult
attributes which the loop body mutates. -/
structure UpdAcc where
  newStorage : List Plant
  adultStorage : List Plant
  newDict : CountDict
  hasAdult : Bool
  currentAdult : Option Plant
deriving DecidableEq

/-- updateStep models one iteration of the loop of PlantArray.update
(plants.py lines 402 to 422): the neighborDict[speciesID] read raises
KeyError when the key is missing; the equality tests against
currentAdult model the identity tests of the Python code. -/
def updateStep (neighborDict : NeighborDict) (acc : UpdAcc) (plant : Plant)
    (u : ℚ) : Except Err UpdAcc :=
  let sid := plant.species.speciesID
  match ndLookup neighborDict sid with
  | none => .error (.keyError sid)
  | some cnt =>
      let conCount := cnt - 1
      let hetCount := ndSum neighborDict - conCount
      let newPlant := plant.update conCount hetCount u
      if newPlant.isDead = true then
        if some plant = acc.currentAdult then
          .ok { acc with hasAdult := false, currentAdult := none }
        else .ok acc
      else if newPlant.isAdult = true then
        .ok { acc with
            adultStorage := acc.adultStorage ++ [newPlant]
            currentAdult :=
              if some plant = acc.currentAdult then some newPlant
              else acc.currentAdult }
      else
        .ok { acc with
            newStorage := acc.newStorage ++ [newPlant]
            newDict :=
              match cdLookup acc.newDict sid with
              | some v => cdSet acc.newDict sid (v.1, v.2 + 1)
              | none => cdSet acc.newDict sid (0, 1) }

/-- updateLoop runs updateStep over the storage list in order, feeding
each iteration the uniform draw indexed by its position. -/
def updateLoop (neighborDict : NeighborDict) (draws : ℕ → ℚ) :
    List Plant → ℕ → UpdAcc → Except Err UpdAcc
  | [], _, acc => .ok acc
  | p :: ps, i, acc =>
      match updateStep neighborDict acc p (draws i) with
      | .ok acc1 => updateLoop neighborDict draws ps (i + 1) acc1
      | .error e => .error e

/-- updateFinish models the tail of PlantArray.update (plants.py lines
424 to 440): the sentinel speciesID is minus one unless the resident
adult survived, a replacement resident is elected from adultStorage
when the flag is down, and the resident is appended to newStorage only
when the sentinel was overwritten.  Reading currentAdult.species with
currentAdult set to None would raise AttributeError; the unreachable
final branch mirrors that read. -/
def updateFinish (arr : PlantArray) (acc : UpdAcc) (relect : ℕ) :
    Except Err PlantArray :=
  let step1 : Except Err (ℤ × UpdAcc) :=
    if acc.hasAdult = true then
      match acc.currentAdult with
      | some p => .ok (p.species.speciesID, acc)
      | none => .error .attributeError
    else
      if h : 0 < acc.adultStorage.length then
        let p := acc.adultStorage.get ⟨relect % acc.adultStorage.length,
          Nat.mod_lt _ h⟩
        .ok (-1, { acc with hasAdult := true, currentAdult := some p })
      else .ok (-1, acc)
  match step1 with
  | .error e => .error e
  | .ok (sid, acc2) =>
      if sid = -1 then
        .ok { arr with
            hasAdult := acc2.hasAdult
            currentAdult := acc2.currentAdult
            storage := acc2.newStorage
            dictionaryFormat := acc2.newDict }
      else
        match acc2.currentAdult with
        | none => .error .attributeError
        | some p =>
            let nd :=
              match cdLookup acc2.newDict sid with
              | some v => cdSet acc2.newDict sid (v.1 + 1, v.2)
              | none => cdSet acc2.newDict sid (1, 0)
            .ok { arr with
                hasAdult := acc2.hasAdult
                currentAdult := acc2.currentAdult
                storage := acc2.newStorage ++ [p]
                dictionaryFormat := nd }

/-- update models PlantArray.update (plants.py lines 372 to 440), with
the per-plant uniform draws and the replacement-election index passed
as oracles. -/
def update (arr : PlantArray) (neighborDict : NeighborDict)
    (draws : ℕ → ℚ) (relect : ℕ) : Except Err PlantArray :=
  match updateLoop neighborDict draws arr.storage 0
      ⟨[], [], [], arr.hasAdult, arr.currentAdult⟩ with
  | .ok acc => updateFinish arr acc relect
  | .error e => .error e

/-- clear models PlantArray.clear (plants.py lines 442 to 447). -/
def clear (arr : PlantArray) : PlantArray :=
  mk0 arr.storageLimit

end PlantArray

/-- Grid abbreviates the nested list of cell populations used for both
the live board and the staging seed board. -/
abbrev Grid := List (List PlantArray)

/-- get2d models the read grid[i][j] on natural indices, raising
IndexError when a row or column is missing. -/
def get2d (g : Grid) (i j : ℕ) : Except Err PlantArray :=
  match g.get? i with
  | none => .error .indexError
  | some row =>
      match row.get? j with
      | none => .error .indexError
      | some a => .ok a

/-- set2d models the write grid[i][j] = a on natural indices; an
out-of-range index leaves the grid unchanged (callers bound-check
first). -/
def set2d (g : Grid) (i j : ℕ) (a : PlantArray) : Grid :=
  match g.get? i with
  | some row => g.set i (row.set j a)
  | none => g

/-- get2dZ models the bound-checked read grid[x][y] on integer
coordinates that the callers have already verified to be nonnegative. -/
def get2dZ (g : Grid) (x y : ℤ) : Except Err PlantArray :=
  if x < 0 ∨ y < 0 then .error .indexError
  else get2d g x.toNat y.toNat

/-- set2dZ models the write grid[x][y] = a on integer coordinates that
the callers have already verified to be nonnegative. -/
def set2dZ (g : Grid) (x y : ℤ) (a : PlantArray) : Grid :=
  set2d g x.toNat y.toNat a

/-- Board models the Board state (board.py lines 74 to 107) restricted
to the attributes the tick path reads: the side length, tick counter,
storage limit, model flag, print frequency, live board and staging
seed board.  The species list, founder parameters and the dispersal
kernel constants only feed the constructor and the random sampler,
which are modelled by explicit oracles. -/
structure Board where
  boardLength : ℕ
  boardTime : ℤ
  storageLimit : ℕ
  boomerModel : Bool
  printFreq : ℤ
  board : Grid
  seedBoard : Grid
deriving DecidableEq

/-- neighborPositions is the 3 by 3 position block listed at board.py
lines 187 to 189. -/
def neighborPositions (i j : ℤ) : List (ℤ × ℤ) :=
  [(i - 1, j - 1), (i - 1, j), (i - 1, j + 1),
   (i, j - 1), (i, j), (i, j + 1),
   (i + 1, j - 1), (i + 1, j), (i + 1, j + 1)]

/-- posFold folds mergeDict over a list of positions, skipping the
positions that fail the in-bounds test of board.py lines 192 to 193. -/
def posFold (b : Board) : List (ℤ × ℤ) → NeighborDict → Except Err NeighborDict
  | [], nd => .ok nd
  | pos :: rest, nd =>
      if -1 < pos.1 ∧ pos.1 < (b.boardLength : ℤ) ∧
          -1 < pos.2 ∧ pos.2 < (b.boardLength : ℤ) then
        match get2dZ b.board pos.1 pos.2 with
        | .ok arr =>
            match arr.mergeDict nd b.boomerModel with
            | .ok nd1 => posFold b rest nd1
            | .error e => .error e
        | .error e => .error e
      else posFold b rest nd

/-- makeNeighborDictAt builds the neighborhood dictionary of one cell,
the inner loop body of Board.makeNeighborDicts (board.py lines 184 to
196). -/
def Board.makeNeighborDictAt (b : Board) (i j : ℤ) : Except Err NeighborDict :=
  posFold b (neighborPositions i j) []

/-- makeNeighborDicts models Board.makeNeighborDicts (board.py lines
176 to 197). -/
def Board.makeNeighborDicts (b : Board) :
    Except Err (List (List NeighborDict)) :=
  (List.range b.boardLength).mapM fun i =>
    (List.range b.boardLength).mapM fun j =>
      b.makeNeighborDictAt (i : ℤ) (j : ℤ)

/-- saveNeighborDicts models Board.saveNeighborDicts (board.py lines
199 to 226).  The first statement of its loop body reads
plantArray.neighborDict, an attribute that PlantArray never defines,
so every board with at least one cell raises AttributeError; a board
of side zero skips the loop and returns the empty list (the pandas
export steps are external I/O modelled as no-ops). -/
def Board.saveNeighborDicts (b : Board) :
    Except Err (List (List NeighborDict)) :=
  if b.boardLength = 0 then .ok [] else .error .attributeError

/-- TickOracle packages the random draws one call of Board.update
consumes: the per-cell per-plant uniform survival draws, the per-cell
replacement-election indices, the per-seed dispersal offsets (the
rounded bivariate normal draw of board.py line 259), and the
random-replacement indices used by addPlant during staging and during
the merge phase. -/
structure TickOracle where
  draw : ℕ → ℕ → ℕ → ℚ
  relect : ℕ → ℕ → ℕ
  offset : ℕ → ℕ → ℕ → ℤ × ℤ
  stageRidx : ℕ → ℕ → ℕ → ℕ
  mergeRidx : ℕ → ℕ → ℕ → ℕ

/-- getNd models the read newNeighborDicts[i][j]. -/
def getNd (nds : List (List NeighborDict)) (i j : ℕ) :
    Except Err NeighborDict :=
  match nds.get? i with
  | none => .error .indexError
  | some row =>
      match row.get? j with
      | none => .error .indexError
      | some nd => .ok nd

/-- stagePhase models the dispersal loop of Board.update (board.py
lines 256 to 267) for the seeds produced at cell (i, j): each seed gets
an offset from the kernel oracle, and an in-bounds landing is added to
the staging cell through addPlant. -/
def stagePhase (L : ℕ) (o : TickOracle) (i j : ℕ) (seeds : List Plant)
    (sb : Grid) : Except Err Grid :=
  seeds.enum.foldlM
    (fun sb kp =>
      let dx := (o.offset i j kp.1).1
      let dy := (o.offset i j kp.1).2
      let x := (i : ℤ) + dx
      let y := (j : ℤ) + dy
      if -1 < x ∧ x < (L : ℤ) ∧ -1 < y ∧ y < (L : ℤ) then
        match get2dZ sb x y with
        | .error e => .error e
        | .ok cell =>
            match cell.addPlant kp.2 (o.stageRidx i j kp.1) with
            | .error e => .error e
            | .ok cell1 => .ok (set2dZ sb x y cell1)
      else .ok sb)
    sb

/-- cellPhase models the first double loop of Board.update (board.py
lines 249 to 267) at one cell: the tile update (plants.py update
through Tile.update), seed production, and the dispersal of the
produced seeds into the staging board. -/
def cellPhase (b : Board) (o : TickOracle) (nds : List (List NeighborDict))
    (acc : Grid × Grid) (i j : ℕ) : Except Err (Grid × Grid) := do
  let bd := acc.1
  let sb := acc.2
  let arr ← get2d bd i j
  let nd ← getNd nds i j
  let arr1 ← arr.update nd (o.draw i j) (o.relect i j)
  let seeds ← arr1.produceSeeds b.boomerModel
  let sb1 ← stagePhase b.boardLength o i j seeds.storage sb
  pure (set2d bd i j arr1, sb1)

/-- mergePhase models the second double loop of Board.update (board.py
lines 269 to 273) at one cell: the staging cell is merged into the
live cell and then reset through clear. -/
def mergePhase (o : TickOracle) (acc : Grid × Grid) (i j : ℕ) :
    Except Err (Grid × Grid) := do
  let bd := acc.1
  let sb := acc.2
  let arr ← get2d bd i j
  let scell ← get2d sb i j
  let arr1 ← arr.mergeArray scell (o.mergeRidx i j)
  pure (set2d bd i j arr1, set2d sb i j scell.clear)

/-- forCells folds a cell action over the row-major double loop
for i in range(L): for j in range(L). -/
def forCells (L : ℕ) (f : Grid × Grid → ℕ → ℕ → Except Err (Grid × Grid))
    (acc : Grid × Grid) : Except Err (Grid × Grid) :=
  (List.range L).foldlM
    (fun acc i => (List.range L).foldlM (fun acc j => f acc i j) acc)
    acc

/-- Board.update models Board.update (board.py lines 229 to 274): the
periodic snapshot branch selects saveNeighborDicts when
(boardTime - 1) mod printFreq is zero (Python modulo, eagerly raising
ZeroDivisionError on printFreq zero) and makeNeighborDicts otherwise,
the tick counter is incremented, every cell is advanced and its seeds
staged, and finally every staging cell is merged and cleared. -/
def Board.update (b : Board) (o : TickOracle) : Except Err Board := do
  if b.printFreq = 0 then throw .zeroDivision
  let nds ←
    if (b.boardTime - 1) % b.printFreq = 0 then b.saveNeighborDicts
    else b.makeNeighborDicts
  let acc1 ← forCells b.boardLength (fun acc i j => cellPhase b o nds acc i j)
    (b.board, b.seedBoard)
  let acc2 ← forCells b.boardLength (fun acc i j => mergePhase o acc i j) acc1
  pure { b with
      boardTime := b.boardTime + 1
      board := acc2.1
      seedBoard := acc2.2 }

/-- runTicks iterates Board.update, feeding each tick its oracle. -/
def runTicks (oracle : ℕ → TickOracle) : ℕ → ℕ → Board → Except Err Board
  | _, 0, b => .ok b
  | t, n + 1, b =>
      match b.update (oracle t) with
      | .ok b1 => runTicks oracle (t + 1) n b1
      | .error e => .error e

/-- simulationRun models Simulation.run (simulator.py lines 121 to
135): the loop header is for i in range(iterations + 2), so the board
is updated iterations + 2 times. -/
def simulationRun (oracle : ℕ → TickOracle) (iterations : ℕ) (b : Board) :
    Except Err Board :=
  runTicks oracle 0 (iterations + 2) b

/-- adultCount is the number of Adult stage individuals in a storage
list. -/
def adultCount (l : List Plant) : ℕ :=
  l.countP (fun p => p.isAdult)

/-- sZero is a concrete species with id 1, maturity threshold one tick,
per-tick survival one half and no density dependence. -/
def sZero : Species :=
  ⟨1, -1, 1, 1/2, 1/2, 5, 1/2, 1/2, 3, 0, 0⟩

/-- sNDD is a concrete species with id 1, maturity threshold three
ticks and density-dependence coefficients one tenth. -/
def sNDD : Species :=
  ⟨1, -1, 3, 1/2, 4/5, 5, 1/2, 9/10, 3, 1/10, 1/10⟩

/-- arrOneJuv is a cell holding a single juvenile of sZero with a
consistent count cache and storage limit five. -/
def arrOneJuv : PlantArray :=
  ⟨false, none, [.juvenile sZero 0], 5, [(1, (0, 1))]⟩

/-- arrResident is a cell whose resident adult of sZero is stored, with
a consistent count cache and storage limit five. -/
def arrResident : PlantArray :=
  ⟨true, some (.adult sZero 3), [.adult sZero 3], 5, [(1, (1, 0))]⟩

/-- arrFullJuv is a cell at capacity one holding a single juvenile of
sZero with a consistent count cache. -/
def arrFullJuv : PlantArray :=
  ⟨false, none, [.juvenile sZero 0], 1, [(1, (0, 1))]⟩

/-- arrTwoJuv is a cell at capacity two holding two juveniles of sZero
with a consistent count cache. -/
def arrTwoJuv : PlantArray :=
  ⟨false, none, [.juvenile sZero 0, .juvenile sZero 0], 2, [(1, (0, 2))]⟩

/-- arrSrcAdult is a source cell holding a resident Adult of sZero
followed by a Juvenile in stored order, with a consistent count
cache. -/
def arrSrcAdult : PlantArray :=
  ⟨true, some (.adult sZero 2), [.adult sZero 2, .juvenile sZero 9], 5,
    [(1, (1, 1))]⟩

/-- oracle0 is the all-zero tick oracle: every uniform draw is zero,
every random index is zero and every dispersal offset is the zero
offset. -/
def oracle0 : TickOracle :=
  ⟨fun _ _ _ => 0, fun _ _ => 0, fun _ _ _ => (0, 0),
   fun _ _ _ => 0, fun _ _ _ => 0⟩

/-- boardEmpty1 is a one by one board in the age-structured (zoomer)
mode with an empty cell, fresh staging cell, tick counter zero and
print frequency one hundred. -/
def boardEmpty1 : Board :=
  ⟨1, 0, 5, false, 100, [[PlantArray.mk0 5]], [[PlantArray.mk0 5]]⟩

/-- boardBoomerJuv is a one by one board in the adult-dispersal
(boomer) mode whose only cell holds a single juvenile of sZero and no
adult anywhere. -/
def boardBoomerJuv : Board :=
  ⟨1, 0, 5, true, 100, [[arrOneJuv]], [[PlantArray.mk0 5]]⟩

/-- boardZoomerJuv is the same one by one single-juvenile board in the
age-structured (zoomer) mode. -/
def boardZoomerJuv : Board :=
  ⟨1, 0, 5, false, 100, [[arrOneJuv]], [[PlantArray.mk0 5]]⟩

/-- BoardWF states that the live grid of a board has exactly
boardLength rows of exactly boardLength cells. -/
def BoardWF (b : Board) : Prop :=
  b.board.length = b.boardLength ∧
    ∀ row ∈ b.board, row.length = b.boardLength

/-! Helper lemmas. -/

theorem adultCount_append (l : List Plant) (p : Plant) :
    adultCount (l ++ [p]) = adultCount l + (if p.isAdult = true then 1 else 0) := by
  simp [adultCount, List.countP_append, List.countP_cons]

theorem isAdult_not_isJuvenile {p : Plant} (h : p.isAdult = true) :
    p.isJuvenile = false := by
  cases p <;> simp_all [Plant.isAdult, Plant.isJuvenile]

/-- addPlant with spare storage capacity never fails: either the plant
is an Adult arriving while the flag is up (a no-op), or the plant is
appended. -/
theorem addPlant_spare (arr : PlantArray) (p : Plant) (r : ℕ)
    (hlt : arr.storage.length < arr.storageLimit) :
    (p.isAdult = true ∧ arr.hasAdult = true ∧ arr.addPlant p r = .ok arr) ∨
    (∃ d, arr.addPlant p r = .ok d ∧ d.storage = arr.storage ++ [p] ∧
      d.storageLimit = arr.storageLimit ∧
      (p.isAdult = true → arr.hasAdult = false ∧ d.hasAdult = true) ∧
      (p.isAdult = false → d.hasAdult = arr.hasAdult)) := by
  by_cases hA : p.isAdult = true
  · by_cases hH : arr.hasAdult = true
    · exact Or.inl ⟨hA, hH, by rw [PlantArray.addPlant, if_pos (Or.inl ⟨hA, hH⟩)]⟩
    · refine Or.inr ?_
      rw [PlantArray.addPlant,
        if_neg (by push_neg; exact ⟨fun _ => hH, fun hJ => absurd hJ (by simp [isAdult_not_isJuvenile hA])⟩),
        if_pos hA, if_neg (by omega)]
      exact ⟨_, rfl, rfl, rfl, fun _ => ⟨by simpa using hH, rfl⟩, fun hc => absurd hA (by simp [hc])⟩
  · refine Or.inr ?_
    by_cases hJ : p.isJuvenile = true
    · rw [PlantArray.addPlant,
        if_neg (by push_neg; exact ⟨fun hx => absurd hx hA, fun _ => by omega⟩),
        if_neg hA, if_pos hlt]
      exact ⟨_, rfl, rfl, rfl, fun hx => absurd hx hA, fun _ => rfl⟩
    · rw [PlantArray.addPlant,
        if_neg (by push_neg; exact ⟨fun hx => absurd hx hA, fun hx => absurd hx hJ⟩),
        if_neg hA, if_pos hlt]
      exact ⟨_, rfl, rfl, rfl, fun hx => absurd hx hA, fun _ => rfl⟩

/-- addPlantFold under total spare capacity: the fold never fails, the
limit is preserved, the adult count stays at most one when it started
consistent, previously stored plants are kept and every offered
juvenile ends up stored. -/
theorem addPlantFold_spec (ps : List Plant) (arr : PlantArray) (f : ℕ → ℕ)
    (hfit : arr.storage.length + ps.length ≤ arr.storageLimit)
    (hwf : arr.hasAdult = false → adultCount arr.storage = 0)
    (hcnt : adultCount arr.storage ≤ 1) :
    ∃ d, PlantArray.addPlantFold arr ps f = .ok d ∧
      d.storageLimit = arr.storageLimit ∧
      d.storage.length ≤ arr.storage.length + ps.length ∧
      adultCount d.storage ≤ 1 ∧
      (d.hasAdult = false → adultCount d.storage = 0) ∧
      (∀ p ∈ arr.storage, p ∈ d.storage) ∧
      (∀ p ∈ ps, p.isJuvenile = true → p ∈ d.storage) := by
  induction ps generalizing arr f with
  | nil =>
      exact ⟨arr, rfl, rfl, by simp, hcnt, hwf, fun p hp => hp, by simp⟩
  | cons p ps ih =>
      have hlt : arr.storage.length < arr.storageLimit := by
        simp at hfit; omega
      rcases addPlant_spare arr p (f 0) hlt with ⟨hA, hH, heq⟩ | ⟨d1, heq, hst, hlim, hAd, hNAd⟩
      · rcases ih arr (fun n => f (n + 1)) (by simp at hfit ⊢; omega) hwf hcnt with
          ⟨d, hfold, h1, h2, h3, h4, h5, h6⟩
        refine ⟨d, ?_, h1, by simp; omega, h3, h4, h5, ?_⟩
        · rw [PlantArray.addPlantFold, heq]; exact hfold
        · intro q hq hqJ
          rcases List.mem_cons.mp hq with hq1 | hq2
          · subst hq1; rw [isAdult_not_isJuvenile hA] at hqJ; cases hqJ
          · exact h6 q hq2 hqJ
      · have hwf1 : d1.hasAdult = false → adultCount d1.storage = 0 := by
          intro hd
          by_cases hA : p.isAdult = true
          · rcases hAd hA with ⟨_, h2⟩; rw [h2] at hd; cases hd
          · rw [hst, adultCount_append, if_neg (by simp [hA])]
            have := hNAd (by simpa using hA)
            rw [this] at hd
            simp [hwf hd]
        have hcnt1 : adultCount d1.storage ≤ 1 := by
          by_cases hA : p.isAdult = true
          · rcases hAd hA with ⟨h1, _⟩
            rw [hst, adultCount_append, if_pos hA, hwf h1]
          · rw [hst, adultCount_append, if_neg (by simp [hA])]; omega
        rcases ih d1 (fun n => f (n + 1))
            (by rw [hst, hlim]; simp at hfit ⊢; omega) hwf1 hcnt1 with
          ⟨d, hfold, h1, h2, h3, h4, h5, h6⟩
        refine ⟨d, ?_, by rw [h1, hlim], ?_, h3, h4, ?_, ?_⟩
        · rw [PlantArray.addPlantFold, heq]; exact hfold
        · rw [hst] at h2; simp at h2 ⊢; omega
        · intro q hq; exact h5 q (by rw [hst]; exact List.mem_append_left _ hq)
        · intro q hq hqJ
          rcases List.mem_cons.mp hq with hq1 | hq2
          · subst hq1; exact h5 q (by rw [hst]; simp)
          · exact h6 q hq2 hqJ

/-- C1: the claimed invariant fails at the replacement-election path of
PlantArray.update.  On a cell holding a single juvenile one tick from
maturity, with a surviving draw, the juvenile is promoted and elected
as the new resident: the returned state has hasAdult true and
currentAdult set to the promoted Adult, yet the rebuilt storage list is
empty, so hasAdult does not match the number of Adults in storage and
the elected resident is not present in the list. -/
theorem C1_elected_adult_dropped :
    ∃ r, PlantArray.update arrOneJuv [(1, 1)] (fun _ => 0) 0 = .ok r ∧
      r.hasAdult = true ∧ r.currentAdult = some (.adult sZero 1) ∧
      r.storage = [] ∧ adultCount r.storage = 0 :=
  ⟨⟨true, some (.adult sZero 1), [], 5, []⟩, by with_unfolding_all rfl,
    rfl, rfl, rfl, rfl⟩

/-- C2: the count cache goes stale.  Adding a Juvenile of the resident
Adult species overwrites that species entry with [0, juvenileCount + 1],
dropping the adult count from the cache: the stored dictionary says
[0, 1] while the mapping derived from the storage list plus the adult
flag (toDict) says [1, 1]. -/
theorem C2_count_cache_stale :
    ∃ r, PlantArray.addPlant arrResident (.juvenile sZero 0) 0 = .ok r ∧
      r.dictionaryFormat = [(1, (0, 1))] ∧
      PlantArray.toDict r = .ok [(1, (1, 1))] ∧
      r.dictionaryFormat ≠ [(1, (1, 1))] :=
  ⟨⟨true, some (.adult sZero 3), [.adult sZero 3, .juvenile sZero 0], 5,
      [(1, (0, 1))]⟩,
    by with_unfolding_all rfl, rfl, by with_unfolding_all rfl, by decide⟩

/-- C3: Simulation.run(0) does not call Board.update zero times.  The
loop header for i in range(iterations + 2) performs two updates even
for zero requested iterations: on a one by one empty board the first
update succeeds and advances boardTime to one, and the second update
takes the periodic snapshot branch, whose saveNeighborDicts reads the
nonexistent attribute plantArray.neighborDict and raises
AttributeError, so the run neither performs exactly zero updates nor
completes. -/
theorem C3_run_zero_iterations_crashes :
    Board.update boardEmpty1 oracle0 =
      .ok ⟨1, 1, 5, false, 100, [[PlantArray.mk0 5]], [[PlantArray.mk0 5]]⟩ ∧
    Board.update ⟨1, 1, 5, false, 100, [[PlantArray.mk0 5]], [[PlantArray.mk0 5]]⟩
      oracle0 = .error .attributeError ∧
    simulationRun (fun _ => oracle0) 0 boardEmpty1 = .error .attributeError :=
  ⟨by with_unfolding_all rfl, by with_unfolding_all rfl,
    by with_unfolding_all rfl⟩

/-- C6: the stage transition matches the specified thresholds with no
clamping: a Juvenile survives exactly when the draw is at most
seedPerTick minus twice the weighted neighbor penalty, promoting at age
t1, and an Adult survives exactly when the draw is at most adultPerTick
minus once the weighted penalty; a failed draw yields Dead at the
unincremented age. -/
theorem C6_stage_transition (s : Species) (a c h : ℤ) (u : ℚ) :
    (u ≤ s.seedPerTick - 2 * ((c : ℚ) * s.conNDD + (h : ℚ) * s.hetNDD) →
      Plant.update (.juvenile s a) c h u =
        if a + 1 ≥ s.t1 then .adult s (a + 1) else .juvenile s (a + 1)) ∧
    (s.seedPerTick - 2 * ((c : ℚ) * s.conNDD + (h : ℚ) * s.hetNDD) < u →
      Plant.update (.juvenile s a) c h u = .dead s a) ∧
    (u ≤ s.adultPerTick - 1 * ((c : ℚ) * s.conNDD + (h : ℚ) * s.hetNDD) →
      Plant.update (.adult s a) c h u = .adult s (a + 1)) ∧
    (s.adultPerTick - 1 * ((c : ℚ) * s.conNDD + (h : ℚ) * s.hetNDD) < u →
      Plant.update (.adult s a) c h u = .dead s a) := by
  have hj : Plant.juvenileNDD s c h =
      2 * ((c : ℚ) * s.conNDD + (h : ℚ) * s.hetNDD) := by
    rw [Plant.juvenileNDD]; ring
  have ha : Plant.adultNDD s c h =
      1 * ((c : ℚ) * s.conNDD + (h : ℚ) * s.hetNDD) := by
    rw [Plant.adultNDD]; ring
  refine ⟨fun h1 => ?_, fun h2 => ?_, fun h3 => ?_, fun h4 => ?_⟩
  · rw [Plant.update, hj, if_pos h1]
  · rw [Plant.update, hj, if_neg (not_le.mpr h2)]
  · rw [Plant.update, ha, if_pos h3]
  · rw [Plant.update, ha, if_neg (not_le.mpr h4)]

/-- C6 witness: at the concrete species sNDD a juvenile of age two with
one conspecific and one heterospecific neighbor survives a draw of one
tenth and is promoted, while an adult fails a draw of nine tenths and
dies. -/
theorem C6_stage_transition_witness :
    Plant.update (.juvenile sNDD 2) 1 1 (1/10) = .adult sNDD 3 ∧
    Plant.update (.adult sNDD 5) 1 1 (9/10) = .dead sNDD 5 := by
  constructor
  · have h := (C6_stage_transition sNDD 2 1 1 (1/10)).1
      (by with_unfolding_all decide)
    rw [h]; with_unfolding_all decide
  · exact (C6_stage_transition sNDD 5 1 1 (9/10)).2.2.2
      (by with_unfolding_all decide)

/-- C7: the random-replacement case of addPlant does not replace an
occupant: on a full cell holding one juvenile of species one, adding an
Adult reaches the line dictionaryFormat[replacedJuvenileIndex][1] -= 1,
which reads the count dictionary at the drawn list index zero; zero is
not a key of the dictionary (its only key is the species id one), so
the operation raises KeyError before touching the storage list. -/
theorem C7_full_replace_raises :
    PlantArray.addPlant arrFullJuv (.adult sZero 7) 0 = .error (.keyError 0) := by
  with_unfolding_all rfl

/-- C9: capacity pressure is not always resolved without failure.  On a
cell at capacity two holding two juveniles of species one, adding an
Adult takes the random-replacement path and raises KeyError from the
count-cache decrement keyed by the drawn list index zero, so the
operation fails instead of resolving the pressure by replacement. -/
theorem C9_capacity_pressure_failure :
    PlantArray.addPlant arrTwoJuv (.adult sZero 0) 0 = .error (.keyError 0) := by
  with_unfolding_all rfl

/-- C5 counterexample: the Species constructor performs no probability
validation.  With p1 = 2, which lies outside (0, 1], construction
succeeds and stores the arguments instead of failing with
InvalidProbability. -/
theorem C5_no_validation_counterexample :
    speciesInit 1 (-1) 2 (1/2) 5 5 3 0 0 =
      .ok ⟨1, -1, 5, 2, 5, 1/2, 3, 0, 0⟩ := by
  with_unfolding_all rfl

/-- C5 amended: Species construction succeeds for every p1, p2 > 0 and
t1, t2 different from zero, including probabilities above one and
negative horizons, and then the derived rates satisfy
seedPerTick = p1 to the power 1 over t1 and adultPerTick = p2 to the
power 1 over t2; the only construction failures are the math-domain
error of log on a nonpositive probability and the division-by-zero
error on a zero horizon, checked in evaluation order. -/
theorem C5_species_init_amended :
    (∀ (nid pid : ℤ) (p1 p2 : ℚ) (t1 t2 : ℤ) (ns : ℕ) (cN hN : ℚ),
      0 < p1 → 0 < p2 → t1 ≠ 0 → t2 ≠ 0 →
      ∃ s, speciesInit nid pid p1 p2 t1 t2 ns cN hN = .ok s ∧
        s.seedPerTickR = (p1 : ℝ) ^ ((t1 : ℝ)⁻¹) ∧
        s.adultPerTickR = (p2 : ℝ) ^ ((t2 : ℝ)⁻¹)) ∧
    (∀ (nid pid : ℤ) (p1 p2 : ℚ) (t1 t2 : ℤ) (ns : ℕ) (cN hN : ℚ),
      p1 ≤ 0 →
      speciesInit nid pid p1 p2 t1 t2 ns cN hN = .error .logDomain) ∧
    (∀ (nid pid : ℤ) (p1 p2 : ℚ) (t1 t2 : ℤ) (ns : ℕ) (cN hN : ℚ),
      0 < p1 → t1 = 0 →
      speciesInit nid pid p1 p2 t1 t2 ns cN hN = .error .zeroDivision) ∧
    (∀ (nid pid : ℤ) (p1 p2 : ℚ) (t1 t2 : ℤ) (ns : ℕ) (cN hN : ℚ),
      0 < p1 → t1 ≠ 0 → p2 ≤ 0 →
      speciesInit nid pid p1 p2 t1 t2 ns cN hN = .error .logDomain) ∧
    (∀ (nid pid : ℤ) (p1 p2 : ℚ) (t1 t2 : ℤ) (ns : ℕ) (cN hN : ℚ),
      0 < p1 → t1 ≠ 0 → 0 < p2 → t2 = 0 →
      speciesInit nid pid p1 p2 t1 t2 ns cN hN = .error .zeroDivision) := by
  refine ⟨?_, ?_, ?_, ?_, ?_⟩
  · intro nid pid p1 p2 t1 t2 ns cN hN hp1 hp2 ht1 ht2
    refine ⟨⟨nid, pid, t1, p1, t2, p2, ns, cN, hN⟩, ?_, ?_, ?_⟩
    · rw [speciesInit, if_neg (not_le.mpr hp1), if_neg ht1,
        if_neg (not_le.mpr hp2), if_neg ht2]
    · rw [SpeciesData.seedPerTickR,
        Real.rpow_def_of_pos (by exact_mod_cast hp1), mul_comm,
        div_eq_inv_mul]
    · rw [SpeciesData.adultPerTickR,
        Real.rpow_def_of_pos (by exact_mod_cast hp2), mul_comm,
        div_eq_inv_mul]
  · intro nid pid p1 p2 t1 t2 ns cN hN hp1
    rw [speciesInit, if_pos hp1]
  · intro nid pid p1 p2 t1 t2 ns cN hN hp1 ht1
    rw [speciesInit, if_neg (not_le.mpr hp1), if_pos ht1]
  · intro nid pid p1 p2 t1 t2 ns cN hN hp1 ht1 hp2
    rw [speciesInit, if_neg (not_le.mpr hp1), if_neg ht1, if_pos hp2]
  · intro nid pid p1 p2 t1 t2 ns cN hN hp1 ht1 hp2 ht2
    rw [speciesInit, if_neg (not_le.mpr hp1), if_neg ht1,
      if_neg (not_le.mpr hp2), if_pos ht2]

/-- C5 witness: construction at the valid input p1 = p2 = one half,
t1 = t2 = 5 succeeds with the claimed derived rates, and the two error
modes fire at p1 = 0 and at t1 = 0. -/
theorem C5_species_init_amended_witness :
    (∃ s, speciesInit 1 (-1) (1/2) (1/2) 5 5 3 0 0 = .ok s ∧
      s.seedPerTickR = ((1/2 : ℚ) : ℝ) ^ (((5 : ℤ) : ℝ)⁻¹) ∧
      s.adultPerTickR = ((1/2 : ℚ) : ℝ) ^ (((5 : ℤ) : ℝ)⁻¹)) ∧
    speciesInit 1 (-1) 0 (1/2) 5 5 3 0 0 = .error .logDomain ∧
    speciesInit 1 (-1) (1/2) (1/2) 0 5 3 0 0 = .error .zeroDivision :=
  ⟨C5_species_init_amended.1 1 (-1) (1/2) (1/2) 5 5 3 0 0
      (by with_unfolding_all decide) (by with_unfolding_all decide)
      (by decide) (by decide),
    C5_species_init_amended.2.1 1 (-1) 0 (1/2) 5 5 3 0 0 (by decide),
    C5_species_init_amended.2.2.1 1 (-1) (1/2) (1/2) 0 5 3 0 0
      (by with_unfolding_all decide) rfl⟩

/-- mergeArray in the full-fit regime: the destination is unchanged
when both sides hold an Adult, and otherwise every source occupant is
offered through addPlant in stored order; for a destination whose
adult bookkeeping is consistent and whose spare capacity covers the
whole source (so that no offer reaches the broken replacement path)
the merge succeeds, the merged adult count stays at most one, and
every juvenile of the source appears in the destination afterwards. -/
theorem mergeArray_fullFit_conservation (dst src : PlantArray) (f : ℕ → ℕ)
    (hwf : dst.hasAdult = false → adultCount dst.storage = 0)
    (hcnt : adultCount dst.storage ≤ 1)
    (hfit : dst.storage.length + src.storage.length ≤ dst.storageLimit) :
    ∃ d, PlantArray.mergeArray dst src f = .ok d ∧
      adultCount d.storage ≤ 1 ∧
      (dst.hasAdult = true ∧ src.hasAdult = true → d = dst) ∧
      (dst.hasAdult = true ∧ src.hasAdult = true ∨
        ∀ p ∈ src.storage, p.isJuvenile = true → p ∈ d.storage) := by
  rw [PlantArray.mergeArray]
  by_cases hb : dst.hasAdult = true ∧ src.hasAdult = true
  · exact ⟨dst, by rw [if_pos hb], hcnt, fun _ => rfl, Or.inl hb⟩
  · rw [if_neg hb]
    rcases addPlantFold_spec src.storage dst f hfit hwf hcnt with
      ⟨d, hfold, _, _, h3, _, _, h6⟩
    exact ⟨d, hfold, h3, fun hx => absurd hx hb, Or.inr h6⟩

/-- C8: the merge offer loop does not always complete.  Merging a
source whose stored order is Adult then Juvenile into a full
destination of capacity one holding a single Juvenile and no Adult
avoids the both-adult no-op, and the very first offer (the Adult) hits
the full-storage replacement path of addPlant, which raises KeyError
from the count-cache decrement keyed by the drawn list index zero: the
loop aborts before the remaining source occupant is ever offered, so
mergeArray raises instead of returning a merged destination. -/
theorem C8_merge_offer_loop_aborts :
    arrFullJuv.hasAdult = false ∧
    arrSrcAdult.hasAdult = true ∧
    arrSrcAdult.storage = [.adult sZero 2, .juvenile sZero 9] ∧
    PlantArray.mergeArray arrFullJuv arrSrcAdult (fun _ => 0) =
      .error (.keyError 0) :=
  ⟨rfl, rfl, rfl, by with_unfolding_all rfl⟩

/-- addPlantFold is a no-op once the adult flag is up and every offered
plant is an Adult: each addPlant call hits the resident-wins case. -/
theorem addPlantFold_allAdult_noop (ps : List Plant) (arr : PlantArray)
    (f : ℕ → ℕ) (hH : arr.hasAdult = true)
    (hads : ∀ p ∈ ps, p.isAdult = true) :
    PlantArray.addPlantFold arr ps f = .ok arr := by
  induction ps generalizing f with
  | nil => rfl
  | cons p ps ih =>
      rw [PlantArray.addPlantFold, PlantArray.addPlant,
        if_pos (Or.inl ⟨hads p (by simp), hH⟩)]
      exact ih _ fun q hq => hads q (by simp [hq])

/-- addAdultTimes only ever appends copies of the given plant. -/
theorem addAdultTimes_mem (n : ℕ) (arr : PlantArray) (p q : Plant)
    (hq : q ∈ (PlantArray.addAdultTimes arr p n).storage) :
    q ∈ arr.storage ∨ q = p := by
  induction n generalizing arr with
  | zero => exact Or.inl hq
  | succ n ih =>
      rcases ih _ hq with hmem | hp
      · rw [PlantArray.addAdult] at hmem
        split at hmem
        · rcases List.mem_append.mp hmem with h1 | h2
          · exact Or.inl h1
          · exact Or.inr (by simpa using h2)
        · exact Or.inl hmem
      · exact Or.inr hp

/-- C10: under the adult-dispersal model every produced offspring is an
Adult, and folding addPlant over any list of Adults into a freshly
cleared staging cell of positive capacity (the dispersal loop of
Board.update as seen by one destination cell) stores exactly the first
arrival: the first Adult raises the hasAdult flag and every later Adult
is discarded, so the staging cell holds at most one offspring Adult
when the merge phase begins. -/
theorem C10_staging_single_adult (limit : ℕ) (ps : List Plant) (f : ℕ → ℕ)
    (hlim : 1 ≤ limit) (hads : ∀ p ∈ ps, p.isAdult = true) :
    (∀ arr sa, PlantArray.produceSeeds arr true = .ok sa →
      ∀ q ∈ sa.storage, q.isAdult = true) ∧
    ∃ d, PlantArray.addPlantFold (PlantArray.mk0 limit) ps f = .ok d ∧
      d.storage.length ≤ 1 ∧ adultCount d.storage ≤ 1 ∧
      ∀ p ps2, ps = p :: ps2 → d.hasAdult = true ∧ d.storage = [p] := by
  constructor
  · intro arr sa hsa q hq
    rw [PlantArray.produceSeeds] at hsa
    split at hsa
    · rcases hca : arr.currentAdult with _ | ca
      · rw [hca] at hsa; cases hsa
      · rw [hca] at hsa
        simp only [if_pos rfl] at hsa
        rcases Except.ok.inj hsa with rfl
        rcases addAdultTimes_mem _ _ _ _ hq with hmem | hp
        · cases hmem
        · rw [hp]; rfl
    · rcases Except.ok.inj hsa with rfl
      cases hq
  · cases ps with
    | nil =>
        refine ⟨PlantArray.mk0 limit, rfl, ?_, ?_, fun p ps2 h => by cases h⟩
        · simp [PlantArray.mk0]
        · simp [PlantArray.mk0, adultCount]
    | cons p ps2 =>
        have hA : p.isAdult = true := hads p (by simp)
        have hcond : ¬((p.isAdult = true ∧ (PlantArray.mk0 limit).hasAdult = true) ∨
            (p.isJuvenile = true ∧
              (PlantArray.mk0 limit).storageLimit ≤
                (PlantArray.mk0 limit).storage.length)) := by
          push_neg
          refine ⟨fun _ => by simp [PlantArray.mk0], fun hJ => ?_⟩
          rw [isAdult_not_isJuvenile hA] at hJ; cases hJ
        have hstep : (PlantArray.mk0 limit).addPlant p (f 0) =
            .ok ⟨true, some p, [p], limit,
              [(p.species.speciesID, (1, 0))]⟩ := by
          rw [PlantArray.addPlant, if_neg hcond, if_pos hA,
            if_neg (by simp [PlantArray.mk0]; omega)]
          rfl
        refine ⟨⟨true, some p, [p], limit, [(p.species.speciesID, (1, 0))]⟩,
          ?_, by simp, ?_, fun q qs hq => by
            injection hq with h1 h2; subst h1; exact ⟨rfl, rfl⟩⟩
        · rw [PlantArray.addPlantFold, hstep]
          exact addPlantFold_allAdult_noop ps2 _ _ rfl
            fun q hq => hads q (by simp [hq])
        · simp [adultCount, List.countP_cons, hA]

/-- C10 witness: two Adult offspring dispersed to the same fresh
staging cell of capacity five leave exactly the first one stored. -/
theorem C10_staging_single_adult_witness :
    (∀ arr sa, PlantArray.produceSeeds arr true = .ok sa →
      ∀ q ∈ sa.storage, q.isAdult = true) ∧
    ∃ d, PlantArray.addPlantFold (PlantArray.mk0 5)
        [.adult sZero 0, .adult sZero 4] (fun _ => 0) = .ok d ∧
      d.storage.length ≤ 1 ∧ adultCount d.storage ≤ 1 ∧
      ∀ p ps2, [Plant.adult sZero 0, Plant.adult sZero 4] = p :: ps2 →
        d.hasAdult = true ∧ d.storage = [p] :=
  C10_staging_single_adult 5 [.adult sZero 0, .adult sZero 4] (fun _ => 0)
    (by decide) (by with_unfolding_all decide)

/-! Lemmas on the neighborhood dictionaries. -/

theorem ndLookup_ndSet_self (d : NeighborDict) (k v : ℤ) :
    ndLookup (ndSet d k v) k = some v := by
  induction d with
  | nil => simp [ndSet, ndLookup]
  | cons kv d ih =>
      obtain ⟨k0, v0⟩ := kv
      by_cases h : k = k0
      · subst h; simp [ndSet, ndLookup]
      · simp [ndSet, ndLookup, h, ih]

theorem ndLookup_ndSet_isSome (d : NeighborDict) (k k0 v : ℤ)
    (h : (ndLookup d k).isSome = true) :
    (ndLookup (ndSet d k0 v) k).isSome = true := by
  induction d with
  | nil => simp [ndLookup] at h
  | cons kv d ih =>
      obtain ⟨k1, v1⟩ := kv
      by_cases h0 : k0 = k1
      · subst h0
        by_cases hk : k = k0
        · subst hk; simp [ndSet, ndLookup]
        · simp only [ndSet, if_pos rfl]
          simp only [ndLookup, if_neg hk] at h ⊢
          exact h
      · by_cases hk : k = k1
        · subst hk; simp [ndSet, ndLookup, h0]
        · simp only [ndSet, if_neg h0]
          simp only [ndLookup, if_neg hk] at h ⊢
          exact ih h

theorem zoomerGo_mono (l : CountDict) (nd : NeighborDict) (k : ℤ)
    (h : (ndLookup nd k).isSome = true) :
    (ndLookup (PlantArray.zoomerGo l nd) k).isSome = true := by
  induction l generalizing nd with
  | nil => exact h
  | cons kv l ih =>
      obtain ⟨k0, v0⟩ := kv
      rw [PlantArray.zoomerGo]
      cases hnd : ndLookup nd k0
      · exact ih _ (ndLookup_ndSet_isSome _ _ _ _ h)
      · exact ih _ (ndLookup_ndSet_isSome _ _ _ _ h)

theorem zoomerGo_self_keys (l : CountDict) (nd : NeighborDict) (k : ℤ)
    (h : (cdLookup l k).isSome = true) :
    (ndLookup (PlantArray.zoomerGo l nd) k).isSome = true := by
  induction l generalizing nd with
  | nil => simp [cdLookup] at h
  | cons kv l ih =>
      obtain ⟨k0, v0⟩ := kv
      by_cases hk : k = k0
      · subst hk
        rw [PlantArray.zoomerGo]
        cases hnd : ndLookup nd k
        · exact zoomerGo_mono l _ k (by rw [ndLookup_ndSet_self]; rfl)
        · exact zoomerGo_mono l _ k (by rw [ndLookup_ndSet_self]; rfl)
      · have h2 : (cdLookup l k).isSome = true := by
          simpa [cdLookup, hk] using h
        rw [PlantArray.zoomerGo]
        cases hnd : ndLookup nd k0
        · exact ih _ h2
        · exact ih _ h2

theorem get2dZ_wf (b : Board) (hwf : BoardWF b) (x y : ℤ)
    (hx0 : 0 ≤ x) (hx1 : x < (b.boardLength : ℤ))
    (hy0 : 0 ≤ y) (hy1 : y < (b.boardLength : ℤ)) :
    ∃ arr, get2dZ b.board x y = .ok arr := by
  obtain ⟨hlen, hrows⟩ := hwf
  have hx : x.toNat < b.board.length := by rw [hlen]; omega
  obtain ⟨row, hrow⟩ : ∃ row, b.board.get? x.toNat = some row :=
    ⟨_, List.get?_eq_get hx⟩
  have hrl : row.length = b.boardLength :=
    hrows row (List.get?_mem hrow)
  have hy : y.toNat < row.length := by rw [hrl]; omega
  obtain ⟨arr, harr⟩ : ∃ a, row.get? y.toNat = some a :=
    ⟨_, List.get?_eq_get hy⟩
  refine ⟨arr, ?_⟩
  rw [get2dZ, if_neg (by omega), get2d]
  simp only [hrow, harr]

theorem posFold_ok (b : Board) (hz : b.boomerModel = false) (hwf : BoardWF b) :
    ∀ (ps : List (ℤ × ℤ)) (nd : NeighborDict),
      ∃ nd2, posFold b ps nd = .ok nd2 := by
  intro ps
  induction ps with
  | nil => exact fun nd => ⟨nd, rfl⟩
  | cons pos rest ih =>
      intro nd
      rw [posFold]
      by_cases hb : -1 < pos.1 ∧ pos.1 < (b.boardLength : ℤ) ∧
          -1 < pos.2 ∧ pos.2 < (b.boardLength : ℤ)
      · rw [if_pos hb]
        obtain ⟨arr, harr⟩ := get2dZ_wf b hwf pos.1 pos.2 (by omega) hb.2.1
          (by omega) hb.2.2.2
        simp only [harr, PlantArray.mergeDict, hz, Bool.false_eq_true,
          if_false]
        exact ih _
      · rw [if_neg hb]; exact ih nd

theorem posFold_mono (b : Board) (hz : b.boomerModel = false) :
    ∀ (ps : List (ℤ × ℤ)) (nd nd2 : NeighborDict) (k : ℤ),
      posFold b ps nd = .ok nd2 →
      (ndLookup nd k).isSome = true → (ndLookup nd2 k).isSome = true := by
  intro ps
  induction ps with
  | nil =>
      intro nd nd2 k heq h
      rcases Except.ok.inj heq with rfl
      exact h
  | cons pos rest ih =>
      intro nd nd2 k heq h
      rw [posFold] at heq
      by_cases hb : -1 < pos.1 ∧ pos.1 < (b.boardLength : ℤ) ∧
          -1 < pos.2 ∧ pos.2 < (b.boardLength : ℤ)
      · rw [if_pos hb] at heq
        cases hget : get2dZ b.board pos.1 pos.2 with
        | error e =>
            simp only [hget] at heq
            exact Except.noConfusion heq
        | ok arr =>
            simp only [hget, PlantArray.mergeDict, hz, Bool.false_eq_true,
              if_false] at heq
            exact ih _ _ k heq
              (zoomerGo_mono arr.dictionaryFormat nd k h)
      · rw [if_neg hb] at heq
        exact ih _ _ k heq h

theorem posFold_keys (b : Board) (hz : b.boomerModel = false) (hwf : BoardWF b)
    (i j : ℤ) (arr : PlantArray)
    (hi0 : 0 ≤ i) (hi1 : i < (b.boardLength : ℤ))
    (hj0 : 0 ≤ j) (hj1 : j < (b.boardLength : ℤ))
    (hcell : get2dZ b.board i j = .ok arr) :
    ∀ (ps : List (ℤ × ℤ)) (nd : NeighborDict), (i, j) ∈ ps →
      ∃ nd2, posFold b ps nd = .ok nd2 ∧
        ∀ k, (cdLookup arr.dictionaryFormat k).isSome = true →
          (ndLookup nd2 k).isSome = true := by
  intro ps
  induction ps with
  | nil => intro nd h; cases h
  | cons pos rest ih =>
      intro nd hmem
      by_cases hpos : pos = (i, j)
      · subst hpos
        rw [posFold, if_pos ⟨by omega, hi1, by omega, hj1⟩]
        simp only [hcell, PlantArray.mergeDict, hz, Bool.false_eq_true,
          if_false]
        obtain ⟨nd2, hnd2⟩ := posFold_ok b hz hwf rest
          (arr.zoomerMergeDict nd)
        refine ⟨nd2, hnd2, fun k hk => ?_⟩
        exact posFold_mono b hz rest _ _ k hnd2
          (zoomerGo_self_keys _ _ _ hk)
      · have hmem2 : (i, j) ∈ rest := by
          rcases List.mem_cons.mp hmem with h1 | h2
          · exact absurd h1.symm hpos
          · exact h2
        rw [posFold]
        by_cases hb : -1 < pos.1 ∧ pos.1 < (b.boardLength : ℤ) ∧
            -1 < pos.2 ∧ pos.2 < (b.boardLength : ℤ)
        · rw [if_pos hb]
          obtain ⟨arr2, harr2⟩ := get2dZ_wf b hwf pos.1 pos.2 (by omega)
            hb.2.1 (by omega) hb.2.2.2
          simp only [harr2, PlantArray.mergeDict, hz, Bool.false_eq_true,
            if_false]
          exact ih _ hmem2
        · rw [if_neg hb]
          exact ih _ hmem2

theorem updateStep_ok (nd : NeighborDict) (acc : PlantArray.UpdAcc)
    (p : Plant) (u : ℚ)
    (hnd : (ndLookup nd p.species.speciesID).isSome = true) :
    ∃ acc2, PlantArray.updateStep nd acc p u = .ok acc2 := by
  cases hres : PlantArray.updateStep nd acc p u with
  | ok a => exact ⟨a, rfl⟩
  | error e =>
      exfalso
      cases hl : ndLookup nd p.species.speciesID with
      | none => rw [hl] at hnd; cases hnd
      | some c =>
          simp only [PlantArray.updateStep, hl] at hres
          split at hres
          · split at hres <;> exact Except.noConfusion hres
          · split at hres <;> exact Except.noConfusion hres

theorem updateLoop_ok (nd : NeighborDict) (draws : ℕ → ℚ) :
    ∀ (ps : List Plant) (i : ℕ) (acc : PlantArray.UpdAcc),
      (∀ p ∈ ps, (ndLookup nd p.species.speciesID).isSome = true) →
      ∃ acc2, PlantArray.updateLoop nd draws ps i acc = .ok acc2 := by
  intro ps
  induction ps with
  | nil => exact fun i acc _ => ⟨acc, rfl⟩
  | cons p ps ih =>
      intro i acc h
      obtain ⟨acc1, hstep⟩ := updateStep_ok nd acc p (draws i) (h p (by simp))
      rw [PlantArray.updateLoop]
      simp only [hstep]
      exact ih _ _ fun q hq => h q (by simp [hq])

/-- C4 counterexample: on a one by one board in the adult-only
(boomerModel) aggregation whose cell holds a single Juvenile of species
one and no Adult anywhere in its block, the neighborhood map built for
that cell is empty, it has no key for the occupant species, and the
lookup neighborDict[speciesID] inside PlantArray.update raises
KeyError. -/
theorem C4_boomer_missing_key :
    boardBoomerJuv.boomerModel = true ∧
    Board.makeNeighborDictAt boardBoomerJuv 0 0 = .ok [] ∧
    ndLookup [] (Plant.species (.juvenile sZero 0)).speciesID = none ∧
    PlantArray.update arrOneJuv [] (fun _ => 0) 0 = .error (.keyError 1) :=
  ⟨rfl, by with_unfolding_all rfl, rfl, by with_unfolding_all rfl⟩

/-- C4 amended: only under the combined (zoomer) aggregation is the
lookup safe.  For a well-formed board in the age-structured mode and an
in-bounds cell whose every occupant has its species registered in the
cell count cache, the neighborhood map built by makeNeighborDicts
exists and contains a key for the species of every occupant of that
cell, and the per-plant loop of PlantArray.update never fails; under
the adult-only (boomerModel) aggregation the map only has keys for
species with a resident Adult in the block, and the lookup fails for a
Juvenile whose species has no Adult anywhere in the block, as the
counterexample shows. -/
theorem C4_zoomer_lookup_safe (b : Board) (i j : ℤ) (arr : PlantArray)
    (hz : b.boomerModel = false) (hwf : BoardWF b)
    (hij : 0 ≤ i ∧ i < (b.boardLength : ℤ) ∧ 0 ≤ j ∧ j < (b.boardLength : ℤ))
    (hcell : get2dZ b.board i j = .ok arr)
    (hkeys : ∀ p ∈ arr.storage,
      (cdLookup arr.dictionaryFormat p.species.speciesID).isSome = true) :
    ∃ nd, b.makeNeighborDictAt i j = .ok nd ∧
      (∀ p ∈ arr.storage, (ndLookup nd p.species.speciesID).isSome = true) ∧
      ∀ draws i0 acc, ∃ acc2,
        PlantArray.updateLoop nd draws arr.storage i0 acc = .ok acc2 := by
  obtain ⟨hi0, hi1, hj0, hj1⟩ := hij
  obtain ⟨nd, hnd, hk⟩ := posFold_keys b hz hwf i j arr hi0 hi1 hj0 hj1 hcell
    (neighborPositions i j) [] (by simp [neighborPositions])
  exact ⟨nd, hnd, fun p hp => hk _ (hkeys p hp), fun draws i0 acc =>
    updateLoop_ok nd draws arr.storage i0 acc fun p hp => hk _ (hkeys p hp)⟩

/-- C4 witness: on the same single-juvenile board in the age-structured
(zoomer) mode the neighborhood map has a key for the occupant species
and the update loop succeeds. -/
theorem C4_zoomer_lookup_safe_witness :
    ∃ nd, boardZoomerJuv.makeNeighborDictAt 0 0 = .ok nd ∧
      (∀ p ∈ arrOneJuv.storage,
        (ndLookup nd p.species.speciesID).isSome = true) ∧
      ∀ draws i0 acc, ∃ acc2,
        PlantArray.updateLoop nd draws arrOneJuv.storage i0 acc = .ok acc2 :=
  C4_zoomer_lookup_safe boardZoomerJuv 0 0 arrOneJuv rfl
    (by refine ⟨rfl, fun row hrow => ?_⟩
        simp only [boardZoomerJuv] at hrow
        simp at hrow
        subst hrow
        rfl)
    (by with_unfolding_all decide) (by with_unfolding_all rfl)
    (by with_unfolding_all decide)

end SP3172
